import Mathlib

/-!
Verification of the tree-walking search and the field extractors of
dcmio/dcmreader/dcmreader.py.

A pydicom dataset is embedded as a finite tagged tree: a dataset maps tags to
data elements, and a data element is either a leaf (scalar or numeric-array
value) or a sequence (value representation "SQ") holding a list of
sub-datasets.  The Python functions are translated one to one:

* walk with stack_values=False is walkFirst, walk with stack_values=True is
  walkAll; both iterate sorted(dataset.keys()) and use walker_callback.
  Python truthiness (the `if out:` tests) is modeled by Value.truthy.
* The extractors take the already-parsed dataset: dicom.read_file is the
  external decoder interface and is out of scope per the specification.
* A Python exception escaping an extractor is modeled as Option.none where it
  can occur (int() and str.replace on values of the wrong type).
* get_number_of_slices_philips shells out to dcmdump through a temporary
  file; the subprocess and the filesystem are embedded as explicit data: the
  function takes the list of lines the dump tool wrote (empty when the tool
  is unavailable, since the shell redirection still creates an empty file)
  and returns the extracted integer together with a Bool that records whether
  the temporary file still exists on disk when the function returns.
-/

/-- A DICOM tag: a (group, element) pair of unsigned 16-bit integers.  Python
compares these tuples lexicographically when sorting dataset keys. -/
abbrev Tag := Nat × Nat

/-- A leaf (non-sequence) element value: a string, a number, or a list of
numbers. -/
inductive LeafVal where
  | int (n : Int)
  | str (s : String)
  | nums (ns : List Int)
deriving DecidableEq

mutual
/-- One data element of a dataset: the leaf case carries a scalar/array
value, the sq case (value representation "SQ") carries the list of item
sub-datasets.  The constructor encodes the invariant that a value is a list
of datasets exactly when the VR is "SQ". -/
inductive DataElement : Type where
  | leaf (tag : Tag) (val : LeafVal)
  | sq (tag : Tag) (items : List Dataset)

/-- A dataset: a mapping from tags to data elements.  A Python dict is
embedded as an association list; dict keys are unique, and walk only ever
iterates the entries in sorted key order. -/
inductive Dataset : Type where
  | mk (fields : List (Tag × DataElement))
end

/-- Tag of a data element (data_element.tag in pydicom). -/
def DataElement.tag : DataElement → Tag
  | .leaf t _ => t
  | .sq t _ => t

/-- Field list of a dataset. -/
def Dataset.fields : Dataset → List (Tag × DataElement)
  | .mk fs => fs

/-- A value as returned by walk / walker_callback: either a leaf value or,
for a matched sequence element, the list of item datasets. -/
inductive Value where
  | ofLeaf (v : LeafVal)
  | ofSq (items : List Dataset)

/-- data_element.value: the leaf payload, or the item list for an SQ
element. -/
def DataElement.value : DataElement → Value
  | .leaf _ v => .ofLeaf v
  | .sq _ items => .ofSq items

/-- Python truthiness of a leaf value: 0, the empty string and the empty
list are falsy. -/
def LeafVal.truthy : LeafVal → Bool
  | .int n => n != 0
  | .str s => s != ""
  | .nums ns => !ns.isEmpty

/-- Python truthiness of a walked value: an SQ value (a list of item
datasets) is truthy when non-empty. -/
def Value.truthy : Value → Bool
  | .ofLeaf v => v.truthy
  | .ofSq items => !items.isEmpty

/-- Python truthiness of walk's intermediate result out: None is falsy,
a value is as truthy as itself. -/
def optTruthy : Option Value → Bool
  | some v => v.truthy
  | none => false

/-- Python truthiness of a list of values (walk's stacked result). -/
def listTruthy (l : List Value) : Bool := !l.isEmpty

/-- walker_callback (dcmreader.py lines 72-91): return the element's value
when its own tag equals the searched tag, None otherwise. -/
def walker_callback (data_element : DataElement) (_tag : Tag) : Option Value :=
  if data_element.tag = _tag then some data_element.value else none

/-- Lexicographic comparison of tags, the order Python's sorted() applies to
(group, element) tuples. -/
def tagLE (a b : Tag) : Bool :=
  decide (a.1 < b.1 ∨ (a.1 = b.1 ∧ a.2 ≤ b.2))

/-- Insert one (tag, element) entry into an already sorted field list. -/
def insertField (p : Tag × DataElement) :
    List (Tag × DataElement) → List (Tag × DataElement)
  | [] => [p]
  | q :: rest => if tagLE p.1 q.1 then p :: q :: rest else q :: insertField p rest

/-- Insertion sort of a field list by tag: the model of
taglist = sorted(dataset.keys()) followed by the dataset[tag] lookups (dict
keys are unique, so iterating the sorted pairs is the same iteration). -/
def sortFields : List (Tag × DataElement) → List (Tag × DataElement)
  | [] => []
  | p :: rest => insertField p (sortFields rest)

theorem sizeOf_insertField (p : Tag × DataElement)
    (l : List (Tag × DataElement)) :
    sizeOf (insertField p l) = 1 + sizeOf p + sizeOf l := by
  induction l with
  | nil => simp [insertField]
  | cons q rest ih =>
    simp only [insertField]
    split
    · simp
    · simp [ih]; omega

theorem sizeOf_sortFields (l : List (Tag × DataElement)) :
    sizeOf (sortFields l) = sizeOf l := by
  induction l with
  | nil => rfl
  | cons p rest ih => simp [sortFields, sizeOf_insertField, ih]

mutual
/-- walk with stack_values=False (dcmreader.py lines 45-69): iterate the
fields in sorted tag order; a truthy callback result is returned at once;
otherwise an SQ element's items are searched recursively and the first
truthy recursive result is returned; None when the subtree is exhausted. -/
def walkFirst : Dataset → Tag → Option Value
  | .mk fields, _tag => walkFirstFields (sortFields fields) _tag
termination_by ds _ => sizeOf ds
decreasing_by simp [sizeOf_sortFields]

/-- The for tag in taglist loop of walk in first-match mode. -/
def walkFirstFields : List (Tag × DataElement) → Tag → Option Value
  | [], _ => none
  | (_, data_element) :: rest, _tag =>
    if optTruthy (walker_callback data_element _tag) then
      walker_callback data_element _tag
    else
      match data_element with
      | .sq _ items =>
        match walkFirstItems items _tag with
        | some v => some v
        | none => walkFirstFields rest _tag
      | .leaf _ _ => walkFirstFields rest _tag
termination_by fs _ => sizeOf fs
decreasing_by all_goals (simp_wf; try omega)

/-- The for sub_dataset in sequence loop of walk in first-match mode: the
first truthy sub-walk aborts the whole walk. -/
def walkFirstItems : List Dataset → Tag → Option Value
  | [], _ => none
  | sub_dataset :: rest, _tag =>
    if optTruthy (walkFirst sub_dataset _tag) then walkFirst sub_dataset _tag
    else walkFirstItems rest _tag
termination_by items _ => sizeOf items
decreasing_by all_goals (simp_wf; try omega)
end

mutual
/-- walk with stack_values=True (dcmreader.py lines 45-69): same traversal,
but truthy callback results are appended to out_list and truthy recursive
lists are concatenated; the accumulated list is returned at the end. -/
def walkAll : Dataset → Tag → List Value
  | .mk fields, _tag => walkAllFields (sortFields fields) _tag
termination_by ds _ => sizeOf ds
decreasing_by simp [sizeOf_sortFields]

/-- The for tag in taglist loop of walk in collect mode. -/
def walkAllFields : List (Tag × DataElement) → Tag → List Value
  | [], _ => []
  | (_, data_element) :: rest, _tag =>
    if optTruthy (walker_callback data_element _tag) then
      (walker_callback data_element _tag).toList ++ walkAllFields rest _tag
    else
      match data_element with
      | .sq _ items => walkAllItems items _tag ++ walkAllFields rest _tag
      | .leaf _ _ => walkAllFields rest _tag
termination_by fs _ => sizeOf fs
decreasing_by all_goals (simp_wf; try omega)

/-- The for sub_dataset in sequence loop of walk in collect mode: a truthy
(non-empty) sub-list is extended onto the accumulator. -/
def walkAllItems : List Dataset → Tag → List Value
  | [], _ => []
  | sub_dataset :: rest, _tag =>
    if listTruthy (walkAll sub_dataset _tag) then
      walkAll sub_dataset _tag ++ walkAllItems rest _tag
    else walkAllItems rest _tag
termination_by items _ => sizeOf items
decreasing_by all_goals (simp_wf; try omega)
end

mutual
/-- Modelled from the spec (amended collect-all contract, spec section 8):
scan fields in sorted tag order; a field whose own tag equals the target and
whose value is truthy contributes that value as one entry and its children
are not entered; a field that does not contribute and is a sequence has its
items searched recursively in order; results are concatenated in traversal
order. -/
def collectSpec : Dataset → Tag → List Value
  | .mk fields, t => collectSpecFields (sortFields fields) t
termination_by ds _ => sizeOf ds
decreasing_by simp [sizeOf_sortFields]

/-- Field-list level of collectSpec. -/
def collectSpecFields : List (Tag × DataElement) → Tag → List Value
  | [], _ => []
  | (_, e) :: rest, t =>
    if e.tag = t ∧ e.value.truthy = true then e.value :: collectSpecFields rest t
    else
      match e with
      | .sq _ items => collectSpecItems items t ++ collectSpecFields rest t
      | .leaf _ _ => collectSpecFields rest t
termination_by fs _ => sizeOf fs
decreasing_by all_goals (simp_wf; try omega)

/-- Item-list level of collectSpec. -/
def collectSpecItems : List Dataset → Tag → List Value
  | [], _ => []
  | d :: rest, t => collectSpec d t ++ collectSpecItems rest t
termination_by items _ => sizeOf items
decreasing_by all_goals (simp_wf; try omega)
end

mutual
/-- Whether a field with the given tag occurs anywhere in the dataset, at
any depth (the plain presence notion used to state the absence claims; it
ignores truthiness). -/
def containsTag : Dataset → Tag → Bool
  | .mk fields, t => containsTagFields fields t
termination_by ds _ => sizeOf ds
decreasing_by all_goals (simp_wf; try omega)

/-- Presence of the tag in a field list (any entry, any depth). -/
def containsTagFields : List (Tag × DataElement) → Tag → Bool
  | [], _ => false
  | (_, e) :: rest, t => containsTagElem e t || containsTagFields rest t
termination_by fs _ => sizeOf fs
decreasing_by all_goals (simp_wf; try omega)

/-- Presence of the tag on one element or under its items. -/
def containsTagElem : DataElement → Tag → Bool
  | .leaf tg _, t => tg == t
  | .sq tg items, t => tg == t || containsTagItems items t
termination_by e _ => sizeOf e
decreasing_by all_goals (simp_wf; try omega)

/-- Presence of the tag in any dataset of an item list. -/
def containsTagItems : List Dataset → Tag → Bool
  | [], _ => false
  | d :: rest, t => containsTag d t || containsTagItems rest t
termination_by items _ => sizeOf items
decreasing_by all_goals (simp_wf; try omega)
end

/-- Python str() of a leaf value (ints print as decimal, strings as
themselves, lists in bracketed comma form). -/
def LeafVal.pyStr : LeafVal → String
  | .int n => toString n
  | .str s => s
  | .nums ns => "[" ++ String.intercalate ", " (ns.map toString) ++ "]"

/-- Python str() of a walked value.  The rendering of a sequence value is a
schematic placeholder: no extractor under verification applies str() to a
matched sequence in a way any claim depends on. -/
def Value.pyStr : Value → String
  | .ofLeaf v => v.pyStr
  | .ofSq _ => "Sequence"

/-- Does the second string occur as a contiguous substring of the first,
starting at its head? -/
def matchesAt : List Char → List Char → Bool
  | [], _ => true
  | _ :: _, [] => false
  | p :: ps, c :: cs => p == c && matchesAt ps cs

/-- Occurrence of a pattern anywhere in a character list. -/
def occursInList (pat : List Char) : List Char → Bool
  | [] => matchesAt pat []
  | c :: cs => matchesAt pat (c :: cs) || occursInList pat cs

/-- Python substring test: pat in s. -/
def occursIn (s pat : String) : Bool := occursInList pat.data s.data

/-- Python str.replace(" ", "_"): every space character becomes an
underscore. -/
def pyReplaceSpace (s : String) : String :=
  String.mk (s.data.map (fun c => if c = ' ' then '_' else c))

/-- Decimal digit value of a character, if it is a digit. -/
def decDigit (c : Char) : Option Nat :=
  if 48 ≤ c.toNat ∧ c.toNat ≤ 57 then some (c.toNat - 48) else none

/-- Accumulate a decimal numeral; any non-digit character fails. -/
def natOfDigits : List Char → Nat → Option Nat
  | [], acc => some acc
  | c :: cs, acc =>
    match decDigit c with
    | some d => natOfDigits cs (acc * 10 + d)
    | none => none

/-- Python int(s) on an already stripped literal: an optional minus sign
followed by at least one decimal digit; anything else raises ValueError,
modeled as none. -/
def pyParseInt (s : String) : Option Int :=
  match s.data with
  | [] => none
  | c :: cs =>
    if c = '-' then
      match cs with
      | [] => none
      | _ => (natOfDigits cs 0).map (fun n => -(n : Int))
    else (natOfDigits (c :: cs) 0).map (fun n => (n : Int))

/-- Python int(value) on a walked value: an int passes through, a string is
parsed, anything else raises TypeError (modeled as none). -/
def pyToInt : Value → Option Int
  | .ofLeaf (.int n) => some n
  | .ofLeaf (.str s) => pyParseInt s
  | _ => none

/-- Python str(f) of the float n * 1000.0 produced by the repetition-time
unit conversion: the product of two integers is an integral float and prints
with a trailing ".0" (exact at these magnitudes). -/
def pyFloatStr (n : Int) : String := toString n ++ ".0"

/-- get_repetition_time (dcmreader.py lines 150-170): first-match walk on
tag (0x0018, 0x0080); a falsy result (walk returned None) yields None; an
integer below 1000 is multiplied by 1000.0 (Python 2: a non-numeric value
never compares below an int, so only the int case converts) and the result
is formatted with str. -/
def get_repetition_time (dataset : Dataset) : Option String :=
  match walkFirst dataset (0x0018, 0x0080) with
  | none => none
  | some tr =>
    if tr.truthy then
      match tr with
      | .ofLeaf (.int n) =>
        some (if n < 1000 then pyFloatStr (n * 1000) else (LeafVal.int n).pyStr)
      | v => some v.pyStr
    else none

/-- get_sop_storage_type (dcmreader.py lines 231-250): first-match walk on
tag (0x0008, 0x0016); True exactly when a truthy value was found and
"Enhanced" occurs in its str() form. -/
def get_sop_storage_type (dataset : Dataset) : Bool :=
  match walkFirst dataset (0x0008, 0x0016) with
  | some value => if value.truthy then occursIn value.pyStr "Enhanced" else false
  | none => false

/-- get_nb_slices (dcmreader.py lines 295-316): first-match walk on the
primary tag (0x0020, 0x1002); when that is falsy, retry on the secondary
vendor tag (0x2001, 0x1018); when that is falsy too, return 0.  int() of a
found value that is neither an int nor a numeral string raises, modeled as
none. -/
def get_nb_slices (dataset : Dataset) : Option Int :=
  let value := walkFirst dataset (0x0020, 0x1002)
  if optTruthy value then value.bind pyToInt
  else
    let value2 := walkFirst dataset (0x2001, 0x1018)
    if optTruthy value2 then value2.bind pyToInt
    else some 0

/-- Shared shape of the six space-sanitizing string extractors
(value.replace(" ", "_") on a truthy found value, "unknown" otherwise;
replace on a non-string raises AttributeError, modeled as none). -/
def replaceOrUnknown (found : Option Value) : Option String :=
  match found with
  | some value =>
    if value.truthy then
      match value with
      | .ofLeaf (.str s) => some (pyReplaceSpace s)
      | _ => none
    else some "unknown"
  | none => some "unknown"

/-- get_manufacturer_name (dcmreader.py lines 340-359): tag
(0x0008, 0x0070), spaces replaced by underscores, default "unknown". -/
def get_manufacturer_name (dataset : Dataset) : Option String :=
  replaceOrUnknown (walkFirst dataset (0x0008, 0x0070))

/-- get_manufacturer_model_name (dcmreader.py lines 362-381): tag
(0x0008, 0x1090). -/
def get_manufacturer_model_name (dataset : Dataset) : Option String :=
  replaceOrUnknown (walkFirst dataset (0x0008, 0x1090))

/-- get_sequence_name (dcmreader.py lines 384-403): tag (0x0008, 0x103e). -/
def get_sequence_name (dataset : Dataset) : Option String :=
  replaceOrUnknown (walkFirst dataset (0x0008, 0x103e))

/-- get_SOPInstanceUID (dcmreader.py lines 406-425): tag (0x0008, 0x0018). -/
def get_SOPInstanceUID (dataset : Dataset) : Option String :=
  replaceOrUnknown (walkFirst dataset (0x0008, 0x0018))

/-- get_protocol_name (dcmreader.py lines 449-469): tag (0x0018, 0x1030). -/
def get_protocol_name (dataset : Dataset) : Option String :=
  replaceOrUnknown (walkFirst dataset (0x0018, 0x1030))

/-- get_serie_serieInstanceUID (dcmreader.py lines 472-491): tag
(0x0020, 0x000e). -/
def get_serie_serieInstanceUID (dataset : Dataset) : Option String :=
  replaceOrUnknown (walkFirst dataset (0x0020, 0x000e))

/-- Last two characters of a character list (Python s[-2:], which is the
whole string when it is shorter than two characters). -/
def lastTwo (cs : List Char) : List Char := cs.drop (cs.length - 2)

/-- Characters before the first '#' (Python s.split('#')[0]). -/
def beforeHash (cs : List Char) : List Char := cs.takeWhile (fun c => c ≠ '#')

/-- All space characters removed (Python s.replace(' ', '')). -/
def removeSpaces (cs : List Char) : List Char := cs.filter (fun c => c ≠ ' ')

/-- get_number_of_slices_philips (dcmreader.py lines 494-530).  The dcmdump
subprocess and the temporary file are embedded as explicit data: dump_lines
is the content the shell redirection wrote (an empty list when the tool is
unavailable, since the redirection creates the file before the command
fails), and the returned Bool records whether temp.txt still exists on disk
at return.  The scan keeps the first line containing "StackNumberOfSlices"
(the for/break loop); buff.close() and os.remove run next, so the file is
gone before the parse below can raise; a missing marker leaves the Python
name temp unbound and the later reference raises NameError, and int() of a
non-numeral raises ValueError - both are caught by the bare except, which
logs a warning and returns 0. -/
def get_number_of_slices_philips (dump_lines : List String) : Int × Bool :=
  match dump_lines.find? (fun line => occursIn line "StackNumberOfSlices") with
  | none => (0, false)
  | some temp =>
    let value := removeSpaces temp.data
    match pyParseInt (String.mk (lastTwo (beforeHash value))) with
    | some n => (n, false)
    | none => (0, false)

theorem optTruthy_some (v : Value) : optTruthy (some v) = v.truthy := rfl

theorem walker_callback_miss (e : DataElement) (t : Tag) (h : e.tag ≠ t) :
    walker_callback e t = none := by simp [walker_callback, h]

theorem walker_callback_hit (e : DataElement) (t : Tag) (h : e.tag = t) :
    walker_callback e t = some e.value := by simp [walker_callback, h]

theorem walkFirstItems_truthy (items : List Dataset) (t : Tag) :
    ∀ v, walkFirstItems items t = some v → v.truthy = true := by
  induction items with
  | nil => intro v h; simp [walkFirstItems] at h
  | cons d rest ih =>
    intro v h
    simp only [walkFirstItems] at h
    split at h
    · next htr => rw [h] at htr; exact htr
    · exact ih v h

theorem walkFirstFields_truthy (fs : List (Tag × DataElement)) (t : Tag) :
    ∀ v, walkFirstFields fs t = some v → v.truthy = true := by
  induction fs with
  | nil => intro v h; simp [walkFirstFields] at h
  | cons p rest ih =>
    obtain ⟨tg, e⟩ := p
    intro v h
    cases e with
    | leaf tg2 val =>
      simp only [walkFirstFields] at h
      split at h
      · next htr => rw [h] at htr; exact htr
      · exact ih v h
    | sq tg2 items =>
      simp only [walkFirstFields] at h
      split at h
      · next htr => rw [h] at htr; exact htr
      · split at h
        · rename_i v2 hv2
          cases h
          exact walkFirstItems_truthy _ _ _ hv2
        · exact ih v h

/-- In first-match mode walk only ever returns a truthy value: a falsy value
fails the if out test and can never be the returned result. -/
theorem walkFirst_truthy (ds : Dataset) (t : Tag) :
    ∀ v, walkFirst ds t = some v → v.truthy = true := by
  obtain ⟨fields⟩ := ds
  intro v h
  simp only [walkFirst] at h
  exact walkFirstFields_truthy _ _ v h

mutual
/-- In collect mode walk only accumulates truthy values: a falsy value fails
the if out test and is never appended. -/
theorem walkAll_truthy : ∀ (ds : Dataset) (t : Tag) (v : Value),
    v ∈ walkAll ds t → v.truthy = true
  | .mk fields, t, v => by
    intro h
    simp only [walkAll] at h
    exact walkAllFields_truthy (sortFields fields) t v h
termination_by ds _ _ => sizeOf ds
decreasing_by simp [sizeOf_sortFields]

/-- Field-list level of walkAll_truthy. -/
theorem walkAllFields_truthy : ∀ (fs : List (Tag × DataElement)) (t : Tag)
    (v : Value), v ∈ walkAllFields fs t → v.truthy = true
  | [], t, v => by intro h; simp [walkAllFields] at h
  | (tg, e) :: rest, t, v => by
    intro h
    cases e with
    | leaf tg2 val =>
      simp only [walkAllFields] at h
      split at h
      · next htr =>
        rcases List.mem_append.mp h with h1 | h2
        · cases hcb : walker_callback (.leaf tg2 val) t with
          | none => rw [hcb] at h1; simp at h1
          | some w =>
            rw [hcb] at h1
            simp at h1
            rw [hcb] at htr
            rw [h1]
            exact htr
        · exact walkAllFields_truthy rest t v h2
      · exact walkAllFields_truthy rest t v h
    | sq tg2 items =>
      simp only [walkAllFields] at h
      split at h
      · next htr =>
        rcases List.mem_append.mp h with h1 | h2
        · cases hcb : walker_callback (.sq tg2 items) t with
          | none => rw [hcb] at h1; simp at h1
          | some w =>
            rw [hcb] at h1
            simp at h1
            rw [hcb] at htr
            rw [h1]
            exact htr
        · exact walkAllFields_truthy rest t v h2
      · rcases List.mem_append.mp h with h1 | h2
        · exact walkAllItems_truthy items t v h1
        · exact walkAllFields_truthy rest t v h2
termination_by fs _ _ => sizeOf fs
decreasing_by all_goals (simp_wf; try omega)

/-- Item-list level of walkAll_truthy. -/
theorem walkAllItems_truthy : ∀ (items : List Dataset) (t : Tag) (v : Value),
    v ∈ walkAllItems items t → v.truthy = true
  | [], t, v => by intro h; simp [walkAllItems] at h
  | d :: rest, t, v => by
    intro h
    simp only [walkAllItems] at h
    split at h
    · rcases List.mem_append.mp h with h1 | h2
      · exact walkAll_truthy d t v h1
      · exact walkAllItems_truthy rest t v h2
    · exact walkAllItems_truthy rest t v h
termination_by items _ _ => sizeOf items
decreasing_by all_goals (simp_wf; try omega)
end

theorem optTruthy_callback_iff (e : DataElement) (t : Tag) :
    optTruthy (walker_callback e t) = true ↔ (e.tag = t ∧ e.value.truthy = true) := by
  unfold walker_callback
  split
  · next h => simp [optTruthy, h]
  · next h => simp [optTruthy, h]

mutual
/-- Collect mode computes exactly the traversal described by the amended
collect-all contract. -/
theorem walkAll_eq_collectSpec : ∀ (ds : Dataset) (t : Tag),
    walkAll ds t = collectSpec ds t
  | .mk fields, t => by
    simp only [walkAll, collectSpec]
    exact walkAllFields_eq (sortFields fields) t
termination_by ds _ => sizeOf ds
decreasing_by simp [sizeOf_sortFields]

/-- Field-list level of walkAll_eq_collectSpec. -/
theorem walkAllFields_eq : ∀ (fs : List (Tag × DataElement)) (t : Tag),
    walkAllFields fs t = collectSpecFields fs t
  | [], t => by simp [walkAllFields, collectSpecFields]
  | (tg, e) :: rest, t => by
    by_cases hc : e.tag = t ∧ e.value.truthy = true
    · have hcb : walker_callback e t = some e.value := walker_callback_hit e t hc.1
      have htr : optTruthy (walker_callback e t) = true :=
        (optTruthy_callback_iff e t).mpr hc
      cases e with
      | leaf tg2 val =>
        simp only [walkAllFields, collectSpecFields]
        rw [if_pos htr, if_pos hc, hcb]
        simp [walkAllFields_eq rest t]
      | sq tg2 items =>
        simp only [walkAllFields, collectSpecFields]
        rw [if_pos htr, if_pos hc, hcb]
        simp [walkAllFields_eq rest t]
    · have htr : optTruthy (walker_callback e t) = false := by
        rcases Bool.eq_false_or_eq_true (optTruthy (walker_callback e t)) with h | h
        · exact absurd ((optTruthy_callback_iff e t).mp h) hc
        · exact h
      cases e with
      | leaf tg2 val =>
        simp only [walkAllFields, collectSpecFields]
        rw [if_neg (by simp [htr]), if_neg hc]
        exact walkAllFields_eq rest t
      | sq tg2 items =>
        simp only [walkAllFields, collectSpecFields]
        rw [if_neg (by simp [htr]), if_neg hc]
        rw [walkAllItems_eq items t, walkAllFields_eq rest t]
termination_by fs _ => sizeOf fs
decreasing_by all_goals (simp_wf; try omega)

/-- Item-list level of walkAll_eq_collectSpec: extending only non-empty
sub-lists is the same as always concatenating. -/
theorem walkAllItems_eq : ∀ (items : List Dataset) (t : Tag),
    walkAllItems items t = collectSpecItems items t
  | [], t => by simp [walkAllItems, collectSpecItems]
  | d :: rest, t => by
    simp only [walkAllItems, collectSpecItems]
    rw [walkAll_eq_collectSpec d t, walkAllItems_eq rest t]
    by_cases he : listTruthy (collectSpec d t) = true
    · rw [if_pos he]
    · rw [if_neg he]
      have : collectSpec d t = [] := by
        simpa [listTruthy] using he
      rw [this]
      simp
termination_by items _ => sizeOf items
decreasing_by all_goals (simp_wf; try omega)
end

theorem containsTagFields_insertField (p : Tag × DataElement)
    (l : List (Tag × DataElement)) (t : Tag) :
    containsTagFields (insertField p l) t
      = (containsTagElem p.2 t || containsTagFields l t) := by
  obtain ⟨pt, pe⟩ := p
  induction l with
  | nil => simp [insertField, containsTagFields]
  | cons q rest ih =>
    obtain ⟨qt, qe⟩ := q
    simp only [insertField]
    split
    · simp [containsTagFields]
    · simp only [containsTagFields, ih]
      cases containsTagElem pe t <;> cases containsTagElem qe t <;> simp

theorem containsTagFields_sortFields (l : List (Tag × DataElement)) (t : Tag) :
    containsTagFields (sortFields l) t = containsTagFields l t := by
  induction l with
  | nil => rfl
  | cons p rest ih =>
    obtain ⟨pt, pe⟩ := p
    simp only [sortFields, containsTagFields_insertField, containsTagFields, ih]

mutual
/-- When no field with the tag occurs anywhere in the dataset, the
first-match walk returns None. -/
theorem absent_walkFirst : ∀ (ds : Dataset) (t : Tag),
    containsTag ds t = false → walkFirst ds t = none
  | .mk fields, t => by
    intro h
    simp only [containsTag] at h
    simp only [walkFirst]
    exact absent_walkFirstFields (sortFields fields) t
      (by rw [containsTagFields_sortFields]; exact h)
termination_by ds _ => sizeOf ds
decreasing_by simp [sizeOf_sortFields]

/-- Field-list level of absent_walkFirst. -/
theorem absent_walkFirstFields : ∀ (fs : List (Tag × DataElement)) (t : Tag),
    containsTagFields fs t = false → walkFirstFields fs t = none
  | [], t => by intro h; simp [walkFirstFields]
  | (tg, e) :: rest, t => by
    intro h
    simp only [containsTagFields, Bool.or_eq_false_iff] at h
    obtain ⟨he, hrest⟩ := h
    cases e with
    | leaf tg2 val =>
      have hne : (DataElement.leaf tg2 val).tag ≠ t := by
        simp only [containsTagElem] at he
        simpa [DataElement.tag] using he
      simp only [walkFirstFields]
      rw [walker_callback_miss _ _ hne]
      simp only [optTruthy, Bool.false_eq_true, if_false]
      exact absent_walkFirstFields rest t hrest
    | sq tg2 items =>
      simp only [containsTagElem, Bool.or_eq_false_iff] at he
      obtain ⟨hne0, hitems⟩ := he
      have hne : (DataElement.sq tg2 items).tag ≠ t := by
        simpa [DataElement.tag] using hne0
      simp only [walkFirstFields]
      rw [walker_callback_miss _ _ hne]
      simp only [optTruthy, Bool.false_eq_true, if_false]
      rw [absent_walkFirstItems items t hitems]
      exact absent_walkFirstFields rest t hrest
termination_by fs _ => sizeOf fs
decreasing_by all_goals (simp_wf; try omega)

/-- Item-list level of absent_walkFirst. -/
theorem absent_walkFirstItems : ∀ (items : List Dataset) (t : Tag),
    containsTagItems items t = false → walkFirstItems items t = none
  | [], t => by intro h; simp [walkFirstItems]
  | d :: rest, t => by
    intro h
    simp only [containsTagItems, Bool.or_eq_false_iff] at h
    obtain ⟨hd, hrest⟩ := h
    simp only [walkFirstItems]
    rw [absent_walkFirst d t hd]
    simp only [optTruthy, Bool.false_eq_true, if_false]
    exact absent_walkFirstItems rest t hrest
termination_by items _ => sizeOf items
decreasing_by all_goals (simp_wf; try omega)
end

mutual
/-- When no field with the tag occurs anywhere in the dataset, the collect
walk returns the empty list. -/
theorem absent_walkAll : ∀ (ds : Dataset) (t : Tag),
    containsTag ds t = false → walkAll ds t = []
  | .mk fields, t => by
    intro h
    simp only [containsTag] at h
    simp only [walkAll]
    exact absent_walkAllFields (sortFields fields) t
      (by rw [containsTagFields_sortFields]; exact h)
termination_by ds _ => sizeOf ds
decreasing_by simp [sizeOf_sortFields]

/-- Field-list level of absent_walkAll. -/
theorem absent_walkAllFields : ∀ (fs : List (Tag × DataElement)) (t : Tag),
    containsTagFields fs t = false → walkAllFields fs t = []
  | [], t => by intro h; simp [walkAllFields]
  | (tg, e) :: rest, t => by
    intro h
    simp only [containsTagFields, Bool.or_eq_false_iff] at h
    obtain ⟨he, hrest⟩ := h
    cases e with
    | leaf tg2 val =>
      have hne : (DataElement.leaf tg2 val).tag ≠ t := by
        simp only [containsTagElem] at he
        simpa [DataElement.tag] using he
      simp only [walkAllFields]
      rw [walker_callback_miss _ _ hne]
      simp only [optTruthy, Bool.false_eq_true, if_false]
      exact absent_walkAllFields rest t hrest
    | sq tg2 items =>
      simp only [containsTagElem, Bool.or_eq_false_iff] at he
      obtain ⟨hne0, hitems⟩ := he
      have hne : (DataElement.sq tg2 items).tag ≠ t := by
        simpa [DataElement.tag] using hne0
      simp only [walkAllFields]
      rw [walker_callback_miss _ _ hne]
      simp only [optTruthy, Bool.false_eq_true, if_false]
      rw [absent_walkAllItems items t hitems]
      rw [absent_walkAllFields rest t hrest]
      rfl
termination_by fs _ => sizeOf fs
decreasing_by all_goals (simp_wf; try omega)

/-- Item-list level of absent_walkAll. -/
theorem absent_walkAllItems : ∀ (items : List Dataset) (t : Tag),
    containsTagItems items t = false → walkAllItems items t = []
  | [], t => by intro h; simp [walkAllItems]
  | d :: rest, t => by
    intro h
    simp only [containsTagItems, Bool.or_eq_false_iff] at h
    obtain ⟨hd, hrest⟩ := h
    simp only [walkAllItems]
    rw [absent_walkAll d t hd]
    simp only [listTruthy, List.isEmpty_nil, Bool.not_true, Bool.false_eq_true, if_false]
    exact absent_walkAllItems rest t hrest
termination_by items _ => sizeOf items
decreasing_by all_goals (simp_wf; try omega)
end

/-- Once the loop has scanned a block of fields without returning, the walk
continues exactly as the walk of the remaining fields. -/
theorem walkFirstFields_append_none (a b : List (Tag × DataElement)) (t : Tag)
    (h : walkFirstFields a t = none) :
    walkFirstFields (a ++ b) t = walkFirstFields b t := by
  induction a with
  | nil => simp
  | cons p rest ih =>
    obtain ⟨tg, e⟩ := p
    rw [List.cons_append]
    cases e with
    | leaf tg2 val =>
      simp only [walkFirstFields] at h ⊢
      split at h
      · next htr => rw [h] at htr; simp [optTruthy] at htr
      · next htr => rw [if_neg htr]; exact ih h
    | sq tg2 items =>
      simp only [walkFirstFields] at h ⊢
      split at h
      · next htr => rw [h] at htr; simp [optTruthy] at htr
      · next htr =>
        rw [if_neg htr]
        split at h
        · next v2 hv2 => simp at h
        · next hv2 => exact ih h

/-- A field whose own tag equals the target and whose value is truthy makes
the loop return that value at once, whatever follows it and whatever its
sub-structure is. -/
theorem walkFirstFields_cons_hit (tg : Tag) (e : DataElement)
    (rest : List (Tag × DataElement)) (t : Tag)
    (htag : e.tag = t) (htr : e.value.truthy = true) :
    walkFirstFields ((tg, e) :: rest) t = some e.value := by
  have hcb : walker_callback e t = some e.value := walker_callback_hit e t htag
  have hot : optTruthy (walker_callback e t) = true := by
    rw [hcb]; exact htr
  cases e with
  | leaf tg2 val =>
    simp only [walkFirstFields]
    rw [if_pos hot, hcb]
  | sq tg2 items =>
    simp only [walkFirstFields]
    rw [if_pos hot, hcb]

/-- C1 (amended): in first-match mode (walk with stack_values=False), upon
reaching a field whose tag equals the target and whose value is truthy -
reaching meaning that the earlier fields of the tag-sorted field list were
scanned without producing a result - the walk returns that field's value
immediately: the result does not depend on the remaining sibling fields, and
the field's own descendants are not visited (a matched sequence's item list
is returned as the value, not searched). -/
theorem C1_first_match_short_circuit (ds : Dataset) (t : Tag)
    (fs1 fs2 : List (Tag × DataElement)) (tg : Tag) (e : DataElement)
    (hsort : sortFields ds.fields = fs1 ++ (tg, e) :: fs2)
    (hnone : walkFirstFields fs1 t = none)
    (htag : e.tag = t) (htr : e.value.truthy = true) :
    walkFirst ds t = some e.value := by
  obtain ⟨fields⟩ := ds
  simp only [Dataset.fields] at hsort
  simp only [walkFirst]
  rw [hsort, walkFirstFields_append_none _ _ _ hnone,
    walkFirstFields_cons_hit _ _ _ _ htag htr]

/-- C1 counterexample: the claim as stated is false for a falsy matching
value.  The dataset holds exactly one field, its tag equals the target, so
the search reaches it first; the claim requires its value (the integer 0) to
be returned, but walk returns None because 0 fails the if out test. -/
theorem C1_counterexample :
    (DataElement.leaf (1, 1) (.int 0)).tag = (1, 1) ∧
    walkFirst (.mk [((1, 1), .leaf (1, 1) (.int 0))]) (1, 1) = none := by
  refine ⟨rfl, ?_⟩
  simp [walkFirst, walkFirstFields, sortFields, insertField, walker_callback,
    optTruthy, DataElement.tag, DataElement.value, Value.truthy, LeafVal.truthy]

/-- C1 witness: the short-circuit theorem applied to a concrete dataset. -/
theorem C1_witness :
    walkFirst (.mk [((1, 2), .leaf (1, 2) (.int 5)),
      ((1, 1), .leaf (1, 1) (.int 0))]) (1, 2) = some (.ofLeaf (.int 5)) :=
  C1_first_match_short_circuit _ (1, 2)
    [((1, 1), .leaf (1, 1) (.int 0))] [] (1, 2) (.leaf (1, 2) (.int 5))
    rfl
    (by simp [walkFirstFields, walker_callback, optTruthy, DataElement.tag]
        decide)
    rfl rfl

/-- C2 (amended): collect mode (walk with stack_values=True) returns
exactly the list described by the traversal contract collectSpec: scanning
fields in depth-first, tag-sorted order, each field whose own tag equals the
target and whose value is truthy contributes that value as one entry and is
not recursed into, a non-contributing sequence field's items are searched
recursively in order, and a matching field with falsy value contributes
nothing. -/
theorem C2_collect_traversal (ds : Dataset) (t : Tag) :
    walkAll ds t = collectSpec ds t :=
  walkAll_eq_collectSpec ds t

/-- C2 counterexample: the claim as stated (one entry per field in the tree
whose own tag equals the target) is false.  The dataset holds exactly one
field and its tag equals the target, yet collect mode returns the empty
list, because the field's value 0 is falsy. -/
theorem C2_counterexample :
    (Dataset.mk [((1, 1), .leaf (1, 1) (.int 0))]).fields.map
        (fun p => p.2.tag) = [(1, 1)] ∧
    walkAll (.mk [((1, 1), .leaf (1, 1) (.int 0))]) (1, 1) = [] := by
  refine ⟨rfl, ?_⟩
  simp [walkAll, walkAllFields, sortFields, insertField, walker_callback,
    optTruthy, DataElement.tag, DataElement.value, Value.truthy, LeafVal.truthy]

/-- C3: searching a tree that contains no field with the target tag at any
depth returns None in first-match mode and the empty list in collect mode
(both functions are total, so no error is possible). -/
theorem C3_not_found (ds : Dataset) (t : Tag) (h : containsTag ds t = false) :
    walkFirst ds t = none ∧ walkAll ds t = [] :=
  ⟨absent_walkFirst ds t h, absent_walkAll ds t h⟩

/-- C3 witness: a concrete nested tree without the tag (9, 9). -/
theorem C3_witness :
    walkFirst (.mk [((1, 1), .leaf (1, 1) (.int 3)),
      ((1, 2), .sq (1, 2) [.mk [((2, 2), .leaf (2, 2) (.str "x"))]])]) (9, 9)
        = none ∧
    walkAll (.mk [((1, 1), .leaf (1, 1) (.int 3)),
      ((1, 2), .sq (1, 2) [.mk [((2, 2), .leaf (2, 2) (.str "x"))]])]) (9, 9)
        = [] :=
  C3_not_found _ (9, 9)
    (by simp [containsTag, containsTagFields, containsTagElem, containsTagItems]
        decide)

/-- C9: a field whose tag equals the target but whose value is falsy (zero,
empty string, empty list) is never treated as a match: in first-match mode
every returned value is truthy (so a falsy value is never the result, and
the search continues past such a field - concretely, a deeper truthy
occurrence of 7 is returned past a top-level falsy 0), and in collect mode
every collected value is truthy (the falsy empty string is omitted). -/
theorem C9_falsy_not_a_match :
    (∀ (ds : Dataset) (t : Tag) (v : Value),
      walkFirst ds t = some v → v.truthy = true) ∧
    (∀ (ds : Dataset) (t : Tag) (v : Value),
      v ∈ walkAll ds t → v.truthy = true) ∧
    walkFirst (.mk [((1, 1), .leaf (1, 1) (.int 0)),
      ((1, 2), .sq (1, 2) [.mk [((1, 1), .leaf (1, 1) (.int 7))]])]) (1, 1)
      = some (.ofLeaf (.int 7)) ∧
    walkAll (.mk [((2, 2), .leaf (2, 2) (.str ""))]) (2, 2) = [] := by
  refine ⟨fun ds t v h => walkFirst_truthy ds t v h,
    fun ds t v h => walkAll_truthy ds t v h, ?_, ?_⟩
  · simp [walkFirst, walkFirstFields, walkFirstItems, sortFields, insertField,
      tagLE, walker_callback, optTruthy, DataElement.tag, DataElement.value,
      Value.truthy, LeafVal.truthy]
  · simp [walkAll, walkAllFields, sortFields, insertField, walker_callback,
      optTruthy, DataElement.tag, DataElement.value, Value.truthy,
      LeafVal.truthy]

/-- C9 witness: the two universally quantified conjuncts applied at concrete
inputs. -/
theorem C9_witness :
    (Value.ofLeaf (.int 7)).truthy = true ∧
    (Value.ofLeaf (.int 4)).truthy = true :=
  ⟨C9_falsy_not_a_match.1 _ (1, 1) _ C9_falsy_not_a_match.2.2.1,
   C9_falsy_not_a_match.2.1 (.mk [((3, 3), .leaf (3, 3) (.int 4))]) (3, 3) _
     (by simp [walkAll, walkAllFields, sortFields, insertField,
       walker_callback, optTruthy, DataElement.tag, DataElement.value,
       Value.truthy, LeafVal.truthy])⟩

/-- Concrete dataset for the slice-count fallback: the primary tag
(0x0020, 0x1002) is absent everywhere, the secondary vendor tag
(0x2001, 0x1018) holds the integer 24. -/
def dsSliceFallback : Dataset :=
  .mk [((0x2001, 0x1018), .leaf (0x2001, 0x1018) (.int 24))]

/-- C4: get_nb_slices asks the walker for the primary tag (0x0020, 0x1002)
first; a found (truthy) value is converted with int() and returned without
consulting the secondary tag; only when the primary walk reports no match
does it retry the secondary vendor tag (0x2001, 0x1018); when that walk also
reports no match the default 0 is returned.  Concretely, on a tree with the
primary tag absent and the secondary tag holding 24 it returns the integer
24. -/
theorem C4_nb_slices_fallback_chain :
    (∀ (ds : Dataset) (v : Value), walkFirst ds (0x0020, 0x1002) = some v →
      get_nb_slices ds = pyToInt v) ∧
    (∀ (ds : Dataset) (v : Value), walkFirst ds (0x0020, 0x1002) = none →
      walkFirst ds (0x2001, 0x1018) = some v → get_nb_slices ds = pyToInt v) ∧
    (∀ (ds : Dataset), walkFirst ds (0x0020, 0x1002) = none →
      walkFirst ds (0x2001, 0x1018) = none → get_nb_slices ds = some 0) ∧
    (containsTag dsSliceFallback (0x0020, 0x1002) = false ∧
      get_nb_slices dsSliceFallback = some 24) := by
  have h1 : walkFirst dsSliceFallback (0x0020, 0x1002) = none := by
    simp [dsSliceFallback, walkFirst, walkFirstFields, sortFields,
      insertField, walker_callback, optTruthy, DataElement.tag,
      DataElement.value, Value.truthy, LeafVal.truthy]
  have h2 : walkFirst dsSliceFallback (0x2001, 0x1018)
      = some (.ofLeaf (.int 24)) := by
    simp [dsSliceFallback, walkFirst, walkFirstFields, sortFields,
      insertField, walker_callback, optTruthy, DataElement.tag,
      DataElement.value, Value.truthy, LeafVal.truthy]
  refine ⟨?_, ?_, ?_, ?_, ?_⟩
  · intro ds v h
    have htr := walkFirst_truthy ds _ v h
    simp only [get_nb_slices]
    rw [h]
    simp [optTruthy, htr]
  · intro ds v ha hb
    have htr := walkFirst_truthy ds _ v hb
    simp only [get_nb_slices]
    rw [ha, hb]
    simp [optTruthy, htr]
  · intro ds ha hb
    simp only [get_nb_slices]
    rw [ha, hb]
    simp [optTruthy]
  · simp [dsSliceFallback, containsTag, containsTagFields, containsTagElem,
      containsTagItems]
  · simp only [get_nb_slices]
    rw [h1, h2]
    simp [optTruthy, Value.truthy, LeafVal.truthy, pyToInt]

/-- C4 witness: the fallback conjunct applied at the concrete dataset. -/
theorem C4_witness :
    get_nb_slices dsSliceFallback = pyToInt (.ofLeaf (.int 24)) :=
  C4_nb_slices_fallback_chain.2.1 dsSliceFallback (.ofLeaf (.int 24))
    (by simp [dsSliceFallback, walkFirst, walkFirstFields, sortFields,
      insertField, walker_callback, optTruthy, DataElement.tag,
      DataElement.value, Value.truthy, LeafVal.truthy])
    (by simp [dsSliceFallback, walkFirst, walkFirstFields, sortFields,
      insertField, walker_callback, optTruthy, DataElement.tag,
      DataElement.value, Value.truthy, LeafVal.truthy])

/-- Concrete repetition-time dataset with a value in seconds. -/
def dsTR500 : Dataset :=
  .mk [((0x0018, 0x0080), .leaf (0x0018, 0x0080) (.int 500))]

/-- Concrete repetition-time dataset with a value already in ms. -/
def dsTR2000 : Dataset :=
  .mk [((0x0018, 0x0080), .leaf (0x0018, 0x0080) (.int 2000))]

/-- C6: get_repetition_time multiplies a found value below 1000 by 1000 (a
float multiplication, so the result prints with a trailing .0) and passes a
value at or above 1000 through unchanged, formatting the result as a string;
concretely a found leaf value 500 yields "500000.0" and a found leaf value
2000 yields "2000". -/
theorem C6_repetition_time_unit_normalization :
    (∀ (ds : Dataset) (n : Int),
      walkFirst ds (0x0018, 0x0080) = some (.ofLeaf (.int n)) → n < 1000 →
      get_repetition_time ds = some (pyFloatStr (n * 1000))) ∧
    (∀ (ds : Dataset) (n : Int),
      walkFirst ds (0x0018, 0x0080) = some (.ofLeaf (.int n)) → 1000 ≤ n →
      get_repetition_time ds = some (toString n)) ∧
    get_repetition_time dsTR500 = some "500000.0" ∧
    get_repetition_time dsTR2000 = some "2000" := by
  have h5 : walkFirst dsTR500 (0x0018, 0x0080)
      = some (.ofLeaf (.int 500)) := by
    simp [dsTR500, walkFirst, walkFirstFields, sortFields, insertField,
      walker_callback, optTruthy, DataElement.tag, DataElement.value,
      Value.truthy, LeafVal.truthy]
  have h20 : walkFirst dsTR2000 (0x0018, 0x0080)
      = some (.ofLeaf (.int 2000)) := by
    simp [dsTR2000, walkFirst, walkFirstFields, sortFields, insertField,
      walker_callback, optTruthy, DataElement.tag, DataElement.value,
      Value.truthy, LeafVal.truthy]
  have key : ∀ (ds : Dataset) (n : Int),
      walkFirst ds (0x0018, 0x0080) = some (.ofLeaf (.int n)) →
      get_repetition_time ds
        = some (if n < 1000 then pyFloatStr (n * 1000) else toString n) := by
    intro ds n h
    have htr := walkFirst_truthy ds _ _ h
    simp only [get_repetition_time]
    rw [h]
    simp only [htr, if_true]
    rfl
  refine ⟨?_, ?_, ?_, ?_⟩
  · intro ds n h hlt
    rw [key ds n h, if_pos hlt]
  · intro ds n h hge
    rw [key ds n h, if_neg (Int.not_lt.mpr hge)]
  · rw [key dsTR500 500 h5]
    decide
  · rw [key dsTR2000 2000 h20]
    decide

/-- C6 witness: the two normalization conjuncts applied at the concrete
datasets. -/
theorem C6_witness :
    get_repetition_time dsTR500 = some (pyFloatStr (500 * 1000)) ∧
    get_repetition_time dsTR2000 = some (toString (2000 : Int)) :=
  ⟨C6_repetition_time_unit_normalization.1 dsTR500 500
    (by simp [dsTR500, walkFirst, walkFirstFields, sortFields, insertField,
      walker_callback, optTruthy, DataElement.tag, DataElement.value,
      Value.truthy, LeafVal.truthy])
    (by decide),
   C6_repetition_time_unit_normalization.2.1 dsTR2000 2000
    (by simp [dsTR2000, walkFirst, walkFirstFields, sortFields, insertField,
      walker_callback, optTruthy, DataElement.tag, DataElement.value,
      Value.truthy, LeafVal.truthy])
    (by decide)⟩

/-- Concrete storage-type dataset with an enhanced-storage SOP class
string. -/
def dsEnhanced : Dataset :=
  .mk [((0x0008, 0x0016), .leaf (0x0008, 0x0016)
    (.str "1.2.840.10008.5.1.4.1.1.4.1 (EnhancedMRImageStorage)"))]

/-- Concrete storage-type dataset with a plain SOP class UID. -/
def dsPlainStorage : Dataset :=
  .mk [((0x0008, 0x0016), .leaf (0x0008, 0x0016)
    (.str "1.2.840.10008.5.1.4.1.1.4"))]

/-- C7: get_sop_storage_type returns exactly the boolean result of testing
whether the substring "Enhanced" occurs in the str() form of the value the
walker found under tag (0x0008, 0x0016), and False when the walker found
nothing; concretely the enhanced-storage string yields True and the plain
UID yields False. -/
theorem C7_sop_storage_type_enhanced :
    (∀ (ds : Dataset) (v : Value), walkFirst ds (0x0008, 0x0016) = some v →
      get_sop_storage_type ds = occursIn v.pyStr "Enhanced") ∧
    (∀ (ds : Dataset), walkFirst ds (0x0008, 0x0016) = none →
      get_sop_storage_type ds = false) ∧
    get_sop_storage_type dsEnhanced = true ∧
    get_sop_storage_type dsPlainStorage = false := by
  have key : ∀ (ds : Dataset) (v : Value),
      walkFirst ds (0x0008, 0x0016) = some v →
      get_sop_storage_type ds = occursIn v.pyStr "Enhanced" := by
    intro ds v h
    have htr := walkFirst_truthy ds _ v h
    simp only [get_sop_storage_type]
    rw [h]
    simp [htr]
  have hE : walkFirst dsEnhanced (0x0008, 0x0016) = some (.ofLeaf
      (.str "1.2.840.10008.5.1.4.1.1.4.1 (EnhancedMRImageStorage)")) := by
    simp [dsEnhanced, walkFirst, walkFirstFields, sortFields, insertField,
      walker_callback, optTruthy, DataElement.tag, DataElement.value,
      Value.truthy, LeafVal.truthy]
  have hP : walkFirst dsPlainStorage (0x0008, 0x0016) = some (.ofLeaf
      (.str "1.2.840.10008.5.1.4.1.1.4")) := by
    simp [dsPlainStorage, walkFirst, walkFirstFields, sortFields, insertField,
      walker_callback, optTruthy, DataElement.tag, DataElement.value,
      Value.truthy, LeafVal.truthy]
  refine ⟨key, ?_, ?_, ?_⟩
  · intro ds h
    simp only [get_sop_storage_type]
    rw [h]
  · rw [key dsEnhanced _ hE]
    decide
  · rw [key dsPlainStorage _ hP]
    decide

/-- C7 witness: the two universally quantified conjuncts applied at concrete
datasets. -/
theorem C7_witness :
    get_sop_storage_type dsEnhanced
      = occursIn (Value.ofLeaf (.str
          "1.2.840.10008.5.1.4.1.1.4.1 (EnhancedMRImageStorage)")).pyStr
          "Enhanced" ∧
    get_sop_storage_type (.mk []) = false :=
  ⟨C7_sop_storage_type_enhanced.1 dsEnhanced _
    (by simp [dsEnhanced, walkFirst, walkFirstFields, sortFields, insertField,
      walker_callback, optTruthy, DataElement.tag, DataElement.value,
      Value.truthy, LeafVal.truthy]),
   C7_sop_storage_type_enhanced.2.1 (.mk [])
    (by simp [walkFirst, walkFirstFields, sortFields])⟩

/-- Found case shared by the six space-sanitizing extractors. -/
theorem replaceOrUnknown_walk_found (tg : Tag) (ds : Dataset) (s : String)
    (h : walkFirst ds tg = some (.ofLeaf (.str s))) :
    replaceOrUnknown (walkFirst ds tg) = some (pyReplaceSpace s) := by
  have htr := walkFirst_truthy ds tg _ h
  rw [h]
  simp [replaceOrUnknown, htr]

/-- Not-found case shared by the six space-sanitizing extractors. -/
theorem replaceOrUnknown_walk_none (tg : Tag) (ds : Dataset)
    (h : walkFirst ds tg = none) :
    replaceOrUnknown (walkFirst ds tg) = some "unknown" := by
  rw [h]
  rfl

/-- Concrete manufacturer dataset whose value contains a space. -/
def dsGE : Dataset :=
  .mk [((0x0008, 0x0070), .leaf (0x0008, 0x0070) (.str "General Electric"))]

/-- C8: each free-text identifier extractor (manufacturer (0x0008, 0x0070),
model (0x0008, 0x1090), sequence name (0x0008, 0x103e), SOP instance UID
(0x0008, 0x0018), protocol (0x0018, 0x1030), series instance UID
(0x0020, 0x000e)) returns the matched string with every space replaced by an
underscore, and the sentinel "unknown" when the walker found nothing;
concretely a matched manufacturer value "General Electric" yields
"General_Electric". -/
theorem C8_space_sanitization :
    (∀ (ds : Dataset) (s : String),
      walkFirst ds (0x0008, 0x0070) = some (.ofLeaf (.str s)) →
      get_manufacturer_name ds = some (pyReplaceSpace s)) ∧
    (∀ (ds : Dataset), walkFirst ds (0x0008, 0x0070) = none →
      get_manufacturer_name ds = some "unknown") ∧
    (∀ (ds : Dataset) (s : String),
      walkFirst ds (0x0008, 0x1090) = some (.ofLeaf (.str s)) →
      get_manufacturer_model_name ds = some (pyReplaceSpace s)) ∧
    (∀ (ds : Dataset), walkFirst ds (0x0008, 0x1090) = none →
      get_manufacturer_model_name ds = some "unknown") ∧
    (∀ (ds : Dataset) (s : String),
      walkFirst ds (0x0008, 0x103e) = some (.ofLeaf (.str s)) →
      get_sequence_name ds = some (pyReplaceSpace s)) ∧
    (∀ (ds : Dataset), walkFirst ds (0x0008, 0x103e) = none →
      get_sequence_name ds = some "unknown") ∧
    (∀ (ds : Dataset) (s : String),
      walkFirst ds (0x0008, 0x0018) = some (.ofLeaf (.str s)) →
      get_SOPInstanceUID ds = some (pyReplaceSpace s)) ∧
    (∀ (ds : Dataset), walkFirst ds (0x0008, 0x0018) = none →
      get_SOPInstanceUID ds = some "unknown") ∧
    (∀ (ds : Dataset) (s : String),
      walkFirst ds (0x0018, 0x1030) = some (.ofLeaf (.str s)) →
      get_protocol_name ds = some (pyReplaceSpace s)) ∧
    (∀ (ds : Dataset), walkFirst ds (0x0018, 0x1030) = none →
      get_protocol_name ds = some "unknown") ∧
    (∀ (ds : Dataset) (s : String),
      walkFirst ds (0x0020, 0x000e) = some (.ofLeaf (.str s)) →
      get_serie_serieInstanceUID ds = some (pyReplaceSpace s)) ∧
    (∀ (ds : Dataset), walkFirst ds (0x0020, 0x000e) = none →
      get_serie_serieInstanceUID ds = some "unknown") ∧
    get_manufacturer_name dsGE = some "General_Electric" := by
  have hGE : walkFirst dsGE (0x0008, 0x0070)
      = some (.ofLeaf (.str "General Electric")) := by
    simp [dsGE, walkFirst, walkFirstFields, sortFields, insertField,
      walker_callback, optTruthy, DataElement.tag, DataElement.value,
      Value.truthy, LeafVal.truthy]
  refine ⟨fun ds s h => replaceOrUnknown_walk_found _ ds s h,
    fun ds h => replaceOrUnknown_walk_none _ ds h,
    fun ds s h => replaceOrUnknown_walk_found _ ds s h,
    fun ds h => replaceOrUnknown_walk_none _ ds h,
    fun ds s h => replaceOrUnknown_walk_found _ ds s h,
    fun ds h => replaceOrUnknown_walk_none _ ds h,
    fun ds s h => replaceOrUnknown_walk_found _ ds s h,
    fun ds h => replaceOrUnknown_walk_none _ ds h,
    fun ds s h => replaceOrUnknown_walk_found _ ds s h,
    fun ds h => replaceOrUnknown_walk_none _ ds h,
    fun ds s h => replaceOrUnknown_walk_found _ ds s h,
    fun ds h => replaceOrUnknown_walk_none _ ds h, ?_⟩
  have step := replaceOrUnknown_walk_found (0x0008, 0x0070) dsGE
    "General Electric" hGE
  calc get_manufacturer_name dsGE
      = some (pyReplaceSpace "General Electric") := step
    _ = some "General_Electric" := by decide

/-- C8 witness: the manufacturer conjuncts applied at concrete datasets. -/
theorem C8_witness :
    get_manufacturer_name dsGE = some (pyReplaceSpace "General Electric") ∧
    get_manufacturer_name (.mk []) = some "unknown" :=
  ⟨C8_space_sanitization.1 dsGE "General Electric"
    (by simp [dsGE, walkFirst, walkFirstFields, sortFields, insertField,
      walker_callback, optTruthy, DataElement.tag, DataElement.value,
      Value.truthy, LeafVal.truthy]),
   C8_space_sanitization.2.1 (.mk [])
    (by simp [walkFirst, walkFirstFields, sortFields])⟩

/-- C5: every failure of the external-dump fallback is converted to 0
instead of raising - the tool-unavailable / marker-absent case is the
absence of any line containing "StackNumberOfSlices" in the dump output
(an unavailable tool leaves the redirected file empty), and the parse-error
case is int() rejecting the extracted two characters - and on every exit
path the temporary file no longer exists on disk when the function returns
(the removal runs before the parse can raise, and a missing marker raises
only at the later NameError). -/
theorem C5_philips_fallback_resilience :
    (∀ (dump_lines : List String),
      dump_lines.find? (fun line => occursIn line "StackNumberOfSlices")
        = none →
      (get_number_of_slices_philips dump_lines).1 = 0) ∧
    (∀ (dump_lines : List String) (temp : String),
      dump_lines.find? (fun line => occursIn line "StackNumberOfSlices")
        = some temp →
      pyParseInt (String.mk (lastTwo (beforeHash (removeSpaces temp.data))))
        = none →
      (get_number_of_slices_philips dump_lines).1 = 0) ∧
    (∀ (dump_lines : List String),
      (get_number_of_slices_philips dump_lines).2 = false) := by
  refine ⟨?_, ?_, ?_⟩
  · intro dump_lines h
    simp [get_number_of_slices_philips, h]
  · intro dump_lines temp hfind hparse
    simp [get_number_of_slices_philips, hfind, hparse]
  · intro dump_lines
    simp only [get_number_of_slices_philips]
    split
    · rfl
    · split
      · rfl
      · rfl

/-- C5 witness: the failure conjuncts applied at concrete dump outputs: an
empty dump (tool unavailable), a marker line whose parse fails, and the
cleanup conjunct at the empty dump. -/
theorem C5_witness :
    (get_number_of_slices_philips []).1 = 0 ∧
    (get_number_of_slices_philips ["NN StackNumberOfSlices"]).1 = 0 ∧
    (get_number_of_slices_philips []).2 = false :=
  ⟨C5_philips_fallback_resilience.1 [] (by decide),
   C5_philips_fallback_resilience.2.1 ["NN StackNumberOfSlices"]
     "NN StackNumberOfSlices" (by decide) (by decide),
   C5_philips_fallback_resilience.2.2 []⟩

/-- A dcmdump output line for a stack of 128 slices. -/
def line128 : String := "(2001,102d) SS 128 # 2, 1 StackNumberOfSlices"

/-- C10: when a marker line is found, get_number_of_slices_philips returns
the integer parsed from exactly the last two characters of the portion
before the first '#' of the space-stripped marker line; consequently a count
of 100 or more is truncated to its last two digits - concretely, on a dump
line whose count field is 128 (the before-# portion strips to
"(2001,102d)SS128") the function returns 28. -/
theorem C10_philips_last_two_truncation :
    (∀ (dump_lines : List String) (temp : String) (n : Int),
      dump_lines.find? (fun line => occursIn line "StackNumberOfSlices")
        = some temp →
      pyParseInt (String.mk (lastTwo (beforeHash (removeSpaces temp.data))))
        = some n →
      (get_number_of_slices_philips dump_lines).1 = n) ∧
    String.mk (beforeHash (removeSpaces line128.data)) = "(2001,102d)SS128" ∧
    get_number_of_slices_philips [line128] = (28, false) := by
  refine ⟨?_, by decide, by decide⟩
  intro dump_lines temp n hfind hparse
  simp [get_number_of_slices_philips, hfind, hparse]

/-- C10 witness: the parse conjunct applied at the concrete dump line. -/
theorem C10_witness :
    (get_number_of_slices_philips [line128]).1 = 28 :=
  C10_philips_last_two_truncation.1 [line128] line128 28 (by decide) (by decide)
